import Mathlib

/-!
# Swarmlist: circular Lamport comparator and swarmlist entries

A shallow embedding of `src/controllers/include.h` (the `Lamport<UIntType>`
template) and of the inline members of `src/controllers/Swarmlist.h`
(`Swarmlist::Entry`, the statistics getters), with the properties of the
specification that concern them.

Unsigned machine integers are natural numbers; a value of a `W`-bit type is a
natural number below `2 ^ W`, and every place where the C++ arithmetic can wrap
carries an explicit `% 2 ^ W`.
-/

namespace swlexp

/-! ## include.h -/

/-- The macro `#define LAMPORT_THRESHOLD 50`. -/
def LAMPORT_THRESHOLD : Nat := 50

/-- The conversion `static_cast<UIntType>(x)` for a `W`-bit unsigned `UIntType`. -/
def castUInt (W x : Nat) : Nat := x % 2 ^ W

/-- The constant `static_cast<UIntType>(-1)`: the largest value of a `W`-bit unsigned type. -/
def maxUInt (W : Nat) : Nat := 2 ^ W - 1

/-- Largest value of the 32-bit `int` that narrow operands are promoted to. -/
def INT_MAX : Nat := 2 ^ 31 - 1

/-- The sum `x + y` in the type the usual arithmetic conversions select for a `W`-bit
unsigned `x` and the `int` literal `y`: operands narrower than `int`
(`W < 32`) are promoted to `int`, where the sum is exact; 32-bit operands are
added as `unsigned int`, modulo `2 ^ 32`. -/
def arithAdd (W x y : Nat) : Nat :=
  if W < 32 then x + y else (x + y) % 2 ^ 32

/-- The difference `x - y` in the type the usual arithmetic conversions select (see
`arithAdd`). The promoted `int` difference is exact (it is only taken with
`y ≤ x`); the `unsigned int` difference is taken modulo `2 ^ 32`. -/
def arithSub (W x y : Nat) : Nat :=
  if W < 32 then x - y else (x + 2 ^ 32 - y) % 2 ^ 32

/-- The method `Lamport<UIntType>::isNewerThan(other)` for a `W`-bit `UIntType`;
`m_lamport` is the clock of the receiver, `other` the clock it is compared
with. -/
def Lamport.isNewerThan (W m_lamport other : Nat) : Bool :=
  let overflow : Bool := decide (arithSub W (maxUInt W) other < LAMPORT_THRESHOLD)
  if overflow then
    decide (m_lamport > other) ||
      decide (m_lamport ≤ castUInt W (arithAdd W other LAMPORT_THRESHOLD))
  else
    decide (m_lamport > other) &&
      decide (m_lamport ≤ arithAdd W other LAMPORT_THRESHOLD)

/-- The comparator of `Lamport8 = Lamport<argos::UInt8>`. -/
def Lamport8.isNewerThan (m_lamport other : Nat) : Bool :=
  Lamport.isNewerThan 8 m_lamport other

/-- The comparator of `Lamport16 = Lamport<argos::UInt16>`. -/
def Lamport16.isNewerThan (m_lamport other : Nat) : Bool :=
  Lamport.isNewerThan 16 m_lamport other

/-- The comparator of `Lamport32 = Lamport<argos::UInt32>`. -/
def Lamport32.isNewerThan (m_lamport other : Nat) : Bool :=
  Lamport.isNewerThan 32 m_lamport other

/-- The comparator rule in the words of the specification (section 4.A), for
width `W` and threshold 50: with `M = 2 ^ W - 1`, if `M - a_old < 50` the
window wraps and `a_new` is newer iff `a_new > a_old` or
`a_new ≤ (a_old + 50) mod 2 ^ W`; otherwise iff `a_old < a_new ≤ a_old + 50`. -/
def specNewer (W a_new a_old : Nat) : Bool :=
  let M := 2 ^ W - 1
  if M - a_old < 50 then
    decide (a_new > a_old ∨ a_new ≤ (a_old + 50) % 2 ^ W)
  else
    decide (a_old < a_new ∧ a_new ≤ a_old + 50)

/-- The circular distance from `b` forward to `a` on the ring of `W`-bit values,
`(a - b) mod 2 ^ W`, a value in `[0, 2 ^ W)`. -/
def modDist (W a b : Nat) : Int := ((a : Int) - (b : Int)) % 2 ^ W

/-- Number of `W`-bit incoming values that `isNewerThan` accepts as newer than
the stored clock `other`. -/
def newerCount (W other : Nat) : Nat :=
  ((Finset.range (2 ^ W)).filter
    (fun a => Lamport.isNewerThan W a other = true)).card

/-! ## Swarmlist.h -/

/-- The private static members of `Swarmlist::Entry`, passed explicitly. -/
structure Swarmlist.EntryStatics where
  /-- The member `static argos::UInt32 c_ticksToInactive`. -/
  c_ticksToInactive : Nat
deriving DecidableEq

/-- The data members of `Swarmlist::Entry`: `RobotId m_robot` (32 bits),
`argos::UInt8 m_swarmMask`, `Lamport32 m_lamport`,
`argos::UInt32 m_timeToInactive`. -/
structure Swarmlist.Entry where
  m_robot : Nat
  m_swarmMask : Nat
  m_lamport : Nat
  m_timeToInactive : Nat
deriving DecidableEq

namespace Swarmlist.Entry

/-- Every member holds a value of its declared C++ type. -/
def inRange (e : Entry) : Prop :=
  e.m_robot < 2 ^ 32 ∧ e.m_swarmMask < 2 ^ 8 ∧ e.m_lamport < 2 ^ 32 ∧
    e.m_timeToInactive < 2 ^ 32

instance (e : Entry) : Decidable e.inRange := by
  unfold inRange; infer_instance

/-- Getter `RobotId getRobotId() const { return m_robot; }`. -/
def getRobotId (e : Entry) : Nat := e.m_robot

/-- Getter `argos::UInt8 getSwarmMask() const { return m_swarmMask; }`. -/
def getSwarmMask (e : Entry) : Nat := e.m_swarmMask

/-- Getter `Lamport32 getLamport() const { return m_lamport; }`. -/
def getLamport (e : Entry) : Nat := e.m_lamport

/-- Getter `argos::UInt32 getTimeToInactive() const { return m_timeToInactive; }`. -/
def getTimeToInactive (e : Entry) : Nat := e.m_timeToInactive

/-- Method `bool isActive(RobotId id) const
{ return m_timeToInactive != 0 || m_robot == id; }`. -/
def isActive (e : Entry) (id : Nat) : Bool :=
  decide (e.m_timeToInactive ≠ 0) || decide (e.m_robot = id)

/-- Method `void tick() { --m_timeToInactive; }` on an `argos::UInt32`: the decrement
is taken modulo `2 ^ 32`. -/
def tick (e : Entry) : Entry :=
  { e with m_timeToInactive := (e.m_timeToInactive + (2 ^ 32 - 1)) % 2 ^ 32 }

/-- Method `void resetTimer() { m_timeToInactive = c_ticksToInactive; }`. -/
def resetTimer (s : EntryStatics) (e : Entry) : Entry :=
  { e with m_timeToInactive := s.c_ticksToInactive }

/-- Method `void setSwarmMask(argos::UInt8 swarmMask) { m_swarmMask = swarmMask; }`. -/
def setSwarmMask (swarmMask : Nat) (e : Entry) : Entry :=
  { e with m_swarmMask := swarmMask }

/-- Method `void incrementLamport() { ++m_lamport; }` on a `Lamport32`, whose
conversion to `argos::UInt32&` is incremented modulo `2 ^ 32`. -/
def incrementLamport (e : Entry) : Entry :=
  { e with m_lamport := (e.m_lamport + 1) % 2 ^ 32 }

/-- Method `static void setTicksToInactive(argos::UInt32 ticksToInactive)
{ c_ticksToInactive = ticksToInactive; }`. -/
def setTicksToInactive (ticksToInactive : Nat) (_s : EntryStatics) : EntryStatics :=
  { c_ticksToInactive := ticksToInactive }

end Swarmlist.Entry

/-- The value data members of `Swarmlist` (the messenger pointer and the
callback object are left out): `m_id`, `m_data`, `m_idToIndex`, `m_numActive`,
`m_next`, `m_numMsgsTx`, `m_numMsgsRx`, `m_highestTti`, `m_ttiSum` (64 bits),
`m_numUpdates` (32 bits). -/
structure Swarmlist where
  m_id : Nat
  m_data : List Swarmlist.Entry
  m_idToIndex : List (Nat × Nat)
  m_numActive : Nat
  m_next : Nat
  m_numMsgsTx : Nat
  m_numMsgsRx : Nat
  m_highestTti : Nat
  m_ttiSum : Nat
  m_numUpdates : Nat
deriving DecidableEq

/-- Outcome of a floating-point division `(argos::Real)x / y` of two unsigned
integers. With `y ≠ 0` it is the `argos::Real` quotient of `x` by `y`, recorded
by its operands; with `y = 0` there is no quotient: C++ leaves the division
undefined, and IEEE 754 arithmetic yields NaN for `0 / 0` and infinity for
`x / 0` with `x ≠ 0`. -/
inductive RealQuotient where
  | quotient (dividend divisor : Nat)
  | infinity
  | nan
deriving DecidableEq

namespace Swarmlist

/-- Every counter holds a value of its declared C++ type. -/
def inRange (s : Swarmlist) : Prop :=
  s.m_id < 2 ^ 32 ∧ s.m_numActive < 2 ^ 32 ∧ s.m_next < 2 ^ 32 ∧
    s.m_numMsgsTx < 2 ^ 64 ∧ s.m_numMsgsRx < 2 ^ 64 ∧ s.m_highestTti < 2 ^ 32 ∧
    s.m_ttiSum < 2 ^ 64 ∧ s.m_numUpdates < 2 ^ 32

instance (s : Swarmlist) : Decidable s.inRange := by
  unfold inRange; infer_instance

/-- Getter `argos::UInt32 getNumActive() const { return m_numActive; }`. -/
def getNumActive (s : Swarmlist) : Nat := s.m_numActive

/-- Getter `argos::UInt32 getHighestTti() const { return m_highestTti; }`. -/
def getHighestTti (s : Swarmlist) : Nat := s.m_highestTti

/-- Method `argos::Real getAverageTti() const
{ return (argos::Real)m_ttiSum / m_numUpdates; }`: the division is evaluated
whatever `m_numUpdates` is. -/
def getAverageTti (s : Swarmlist) : RealQuotient :=
  if s.m_numUpdates = 0 then
    if s.m_ttiSum = 0 then RealQuotient.nan else RealQuotient.infinity
  else RealQuotient.quotient s.m_ttiSum s.m_numUpdates

/-- A replica of robot 1 that holds only its owner entry and has recorded no
update yet: all counters and statistics are zero. -/
def noUpdateYet : Swarmlist :=
  { m_id := 1, m_data := [⟨1, 0, 0, 100⟩], m_idToIndex := [(1, 0)],
    m_numActive := 1, m_next := 0, m_numMsgsTx := 0, m_numMsgsRx := 0,
    m_highestTti := 0, m_ttiSum := 0, m_numUpdates := 0 }

end Swarmlist

/-! ## Theorems -/

/-- The 8-bit comparator unfolded to plain arithmetic. -/
theorem isNewerThan8_eq (a b : Nat) :
    Lamport8.isNewerThan a b =
      if 255 - b < 50 then (decide (a > b) || decide (a ≤ (b + 50) % 256))
      else (decide (a > b) && decide (a ≤ b + 50)) := by
  simp [Lamport8.isNewerThan, Lamport.isNewerThan, arithSub, arithAdd, maxUInt,
    castUInt, LAMPORT_THRESHOLD]

/-- C1: for all 8-bit clock values `a_new`, `a_old`, `Lamport8(a_new).isNewerThan(a_old)`
is true exactly when the rule of the specification holds (wrapping window when
`255 - a_old < 50`, plain window otherwise); and `cmp(3,250)` is true,
`cmp(250,3)` and `cmp(60,3)` are false. -/
theorem C1_isNewerThan8_matches_spec (a_new a_old : Nat)
    (_hnew : a_new < 256) (_hold : a_old < 256) :
    (Lamport8.isNewerThan a_new a_old = true ↔ specNewer 8 a_new a_old = true) ∧
    Lamport8.isNewerThan 3 250 = true ∧
    Lamport8.isNewerThan 250 3 = false ∧
    Lamport8.isNewerThan 60 3 = false := by
  refine ⟨?_, by decide, by decide, by decide⟩
  rw [isNewerThan8_eq]
  simp [specNewer]

/-- C1 at the wrapping pair of the specification: new clock 3, old clock 250. -/
theorem C1_isNewerThan8_matches_spec_witness :
    (3 < 256 ∧ 250 < 256) ∧
    ((Lamport8.isNewerThan 3 250 = true ↔ specNewer 8 3 250 = true) ∧
      Lamport8.isNewerThan 3 250 = true ∧
      Lamport8.isNewerThan 250 3 = false ∧
      Lamport8.isNewerThan 60 3 = false) :=
  ⟨⟨by decide, by decide⟩,
    C1_isNewerThan8_matches_spec 3 250 (by decide) (by decide)⟩

/-- C2: on 8-bit clocks `isNewerThan` is asymmetric (`a` newer than `b` and `b`
newer than `a` never both hold) and irreflexive (a tie is not newer); in
particular 4 is not newer than 5. -/
theorem C2_isNewerThan8_asymm_irrefl (a b : Nat) (ha : a < 256) (hb : b < 256) :
    ¬ (Lamport8.isNewerThan a b = true ∧ Lamport8.isNewerThan b a = true) ∧
    Lamport8.isNewerThan a a = false ∧
    Lamport8.isNewerThan 4 5 = false := by
  refine ⟨?_, ?_, by decide⟩
  · rw [isNewerThan8_eq, isNewerThan8_eq]
    split <;> split <;> simp <;> omega
  · rw [isNewerThan8_eq]
    split <;> simp; omega

/-- C2 at a pair straddling the wrap: 3 is newer than 250, so 250 is not newer
than 3. -/
theorem C2_isNewerThan8_asymm_irrefl_witness :
    (3 < 256 ∧ 250 < 256) ∧
    (¬ (Lamport8.isNewerThan 3 250 = true ∧ Lamport8.isNewerThan 250 3 = true) ∧
      Lamport8.isNewerThan 3 3 = false ∧
      Lamport8.isNewerThan 4 5 = false) :=
  ⟨⟨by decide, by decide⟩,
    C2_isNewerThan8_asymm_irrefl 3 250 (by decide) (by decide)⟩

open Swarmlist in
/-- C3: `Entry::isActive(id)` is true iff the time-to-inactive is nonzero or the
entry's robot id equals `id`; so the owner's own entry is reported active
whatever its TTI (also 0), and an entry with TTI 0 is reported inactive to
every other id. -/
theorem C3_isActive_iff (e : Entry) (id : Nat) :
    (e.isActive id = true ↔ (e.getTimeToInactive ≠ 0 ∨ e.getRobotId = id)) ∧
    e.isActive e.getRobotId = true ∧
    (e.getTimeToInactive = 0 → e.getRobotId ≠ id → e.isActive id = false) := by
  refine ⟨?_, ?_, ?_⟩
  · simp [Entry.isActive, Entry.getTimeToInactive, Entry.getRobotId]
  · simp [Entry.isActive, Entry.getRobotId]
  · intro h0 hne
    simp [Entry.isActive, Entry.getTimeToInactive, Entry.getRobotId] at h0 hne ⊢
    exact ⟨h0, hne⟩

open Swarmlist in
/-- C3 on the entry of robot 2 with TTI 0, asked by robot 1: inactive. -/
theorem C3_isActive_iff_witness :
    Entry.isActive ⟨2, 7, 5, 0⟩ 2 = true ∧ Entry.isActive ⟨2, 7, 5, 0⟩ 1 = false :=
  ⟨(C3_isActive_iff ⟨2, 7, 5, 0⟩ 1).2.1,
    (C3_isActive_iff ⟨2, 7, 5, 0⟩ 1).2.2 (by decide) (by decide)⟩

/-- Iterating `incrementLamport` adds to the stored clock modulo `2 ^ 32` and
leaves the other members alone. -/
theorem incrementLamport_iterate (k : Nat) (e : Swarmlist.Entry)
    (h : e.m_lamport < 2 ^ 32) :
    Swarmlist.Entry.incrementLamport^[k] e =
      { e with m_lamport := (e.m_lamport + k) % 2 ^ 32 } := by
  induction k with
  | zero =>
    have h0 : e.m_lamport % 2 ^ 32 = e.m_lamport := Nat.mod_eq_of_lt h
    cases e
    simp only [Function.iterate_zero, id_eq, Nat.add_zero] at h0 ⊢
    rw [h0]
  | succ k ih =>
    rw [Function.iterate_succ_apply', ih]
    simp only [Swarmlist.Entry.incrementLamport]
    congr 1
    rw [Nat.add_mod, Nat.mod_mod, ← Nat.add_mod, Nat.add_assoc]

/-- Iterating `tick` no more often than the TTI allows subtracts from the TTI
without wrapping and leaves the other members alone. -/
theorem tick_iterate (k : Nat) (e : Swarmlist.Entry)
    (hk : k ≤ e.m_timeToInactive) (h : e.m_timeToInactive < 2 ^ 32) :
    Swarmlist.Entry.tick^[k] e =
      { e with m_timeToInactive := e.m_timeToInactive - k } := by
  induction k with
  | zero => simp
  | succ k ih =>
    have h32 : (2 : Nat) ^ 32 = 4294967296 := by norm_num
    have key : (e.m_timeToInactive - k + (2 ^ 32 - 1)) % 2 ^ 32 =
        e.m_timeToInactive - (k + 1) := by
      rw [h32] at h ⊢
      omega
    rw [Function.iterate_succ_apply', ih (by omega)]
    simp only [Swarmlist.Entry.tick, key]

open Swarmlist in
/-- C4, as stated, fails: the clock of an entry is a `Lamport32`, so
`incrementLamport` on an entry whose Lamport is 255 gives 256 (not 0), and 260
increments from 0 give 260 (not 4); both entries hold values of their C++
types. -/
theorem C4_lamport_not_8bit :
    Entry.inRange ⟨1, 0, 255, 100⟩ ∧ Entry.inRange ⟨1, 0, 0, 100⟩ ∧
    (Entry.incrementLamport ⟨1, 0, 255, 100⟩).getLamport = 256 ∧
    (Entry.incrementLamport ⟨1, 0, 255, 100⟩).getLamport ≠ 0 ∧
    (Entry.incrementLamport^[260] ⟨1, 0, 0, 100⟩).getLamport = 260 ∧
    (Entry.incrementLamport^[260] ⟨1, 0, 0, 100⟩).getLamport ≠ 4 := by
  have h : (Entry.incrementLamport^[260] ⟨1, 0, 0, 100⟩).getLamport = 260 := by
    rw [incrementLamport_iterate 260 ⟨1, 0, 0, 100⟩ (by norm_num)]
    simp [Entry.getLamport]
  refine ⟨by decide, by decide, by decide, by decide, h, ?_⟩
  rw [h]
  decide

open Swarmlist in
/-- C4, amended: an entry's Lamport clock is stored as a 32-bit value that wraps
modulo `2 ^ 32`: `k` calls to `incrementLamport` turn the stored Lamport `L`
into `(L + k) mod 2 ^ 32`; one call from 4294967295 yields 0, one call from 255
yields 256, and 260 calls from 0 leave 260. -/
theorem C4_incrementLamport_mod_2_32 (e : Entry) (k : Nat)
    (h : e.getLamport < 2 ^ 32) :
    (Entry.incrementLamport^[k] e).getLamport = (e.getLamport + k) % 2 ^ 32 ∧
    (e.getLamport = 4294967295 → e.incrementLamport.getLamport = 0) ∧
    (e.getLamport = 255 → e.incrementLamport.getLamport = 256) ∧
    (e.getLamport = 0 → (Entry.incrementLamport^[260] e).getLamport = 260) := by
  have hk : ∀ j, (Entry.incrementLamport^[j] e).getLamport =
      (e.getLamport + j) % 2 ^ 32 := by
    intro j
    rw [incrementLamport_iterate j e h]
    rfl
  refine ⟨hk k, ?_, ?_, ?_⟩
  · intro h1
    simp [Entry.incrementLamport, Entry.getLamport] at h1 ⊢
    rw [h1]
  · intro h1
    simp [Entry.incrementLamport, Entry.getLamport] at h1 ⊢
    rw [h1]
  · intro h1
    rw [hk 260, h1]
    norm_num

open Swarmlist in
/-- C4 amended, on the owner entry at the top of the 32-bit range: the next
increment wraps to 0, and three increments give 2. -/
theorem C4_incrementLamport_mod_2_32_witness :
    Entry.getLamport ⟨1, 0, 4294967295, 100⟩ < 2 ^ 32 ∧
    (Entry.incrementLamport^[3] ⟨1, 0, 4294967295, 100⟩).getLamport =
      (4294967295 + 3) % 2 ^ 32 ∧
    (Entry.incrementLamport ⟨1, 0, 4294967295, 100⟩).getLamport = 0 :=
  ⟨by decide,
    (C4_incrementLamport_mod_2_32 ⟨1, 0, 4294967295, 100⟩ 3 (by decide)).1,
    (C4_incrementLamport_mod_2_32 ⟨1, 0, 4294967295, 100⟩ 3 (by decide)).2.1 rfl⟩

open Swarmlist in
/-- C5: with `n = ticks_to_inactive`, `1 ≤ n`, an entry whose timer was just
reset has TTI `n - k` after `k ≤ n` calls to `tick`; it is still active (for
every id) while `k < n`, and after exactly `n` ticks its TTI is 0 and it is
inactive for every id other than its own robot id. -/
theorem C5_aging (s : EntryStatics) (e : Entry) (k id : Nat)
    (_hn1 : 1 ≤ s.c_ticksToInactive) (hn : s.c_ticksToInactive < 2 ^ 32)
    (hk : k ≤ s.c_ticksToInactive) :
    (Entry.tick^[k] (e.resetTimer s)).getTimeToInactive = s.c_ticksToInactive - k ∧
    (k < s.c_ticksToInactive → (Entry.tick^[k] (e.resetTimer s)).isActive id = true) ∧
    (Entry.tick^[s.c_ticksToInactive] (e.resetTimer s)).getTimeToInactive = 0 ∧
    (id ≠ e.getRobotId →
      (Entry.tick^[s.c_ticksToInactive] (e.resetTimer s)).isActive id = false) := by
  have hit : ∀ j, j ≤ s.c_ticksToInactive → Entry.tick^[j] (e.resetTimer s) =
      { e.resetTimer s with m_timeToInactive := s.c_ticksToInactive - j } :=
    fun j hj => tick_iterate j (e.resetTimer s) hj hn
  refine ⟨?_, ?_, ?_, ?_⟩
  · rw [hit k hk]
    rfl
  · intro hlt
    rw [hit k hk]
    have : s.c_ticksToInactive - k ≠ 0 := by omega
    simp [Entry.isActive, this]
  · rw [hit _ (Nat.le_refl _)]
    simp [Entry.getTimeToInactive]
  · intro hid
    rw [hit _ (Nat.le_refl _)]
    simp only [Entry.getRobotId] at hid
    simp [Entry.isActive, Entry.resetTimer, Ne.symm hid]

open Swarmlist in
/-- C5 with `ticks_to_inactive = 100`: 100 ticks after a reset the TTI of the
entry of robot 2 is 0 and robot 1 sees it inactive. -/
theorem C5_aging_witness :
    (Entry.tick^[100] (Entry.resetTimer ⟨100⟩ ⟨2, 7, 5, 37⟩)).getTimeToInactive = 0 ∧
    (Entry.tick^[100] (Entry.resetTimer ⟨100⟩ ⟨2, 7, 5, 37⟩)).isActive 1 = false :=
  ⟨(C5_aging ⟨100⟩ ⟨2, 7, 5, 37⟩ 100 1 (by decide) (by decide) (by decide)).2.2.1,
    (C5_aging ⟨100⟩ ⟨2, 7, 5, 37⟩ 100 1 (by decide) (by decide) (by decide)).2.2.2
      (by decide)⟩

open Swarmlist in
/-- C6: on an entry whose TTI is greater than 0, `tick` makes the TTI exactly
one less (no wraparound), and the ticked entry is inactive for an id other than
its robot id exactly when the old TTI was 1. -/
theorem C6_tick_decrements (e : Entry) (id : Nat)
    (hpos : 0 < e.getTimeToInactive) (hr : e.getTimeToInactive < 2 ^ 32)
    (hid : id ≠ e.getRobotId) :
    e.tick.getTimeToInactive = e.getTimeToInactive - 1 ∧
    e.tick.getTimeToInactive + 1 = e.getTimeToInactive ∧
    e.isActive id = true ∧
    (e.tick.isActive id = false ↔ e.getTimeToInactive = 1) := by
  simp only [Entry.getTimeToInactive, Entry.getRobotId] at hpos hr hid
  have h32 : (2 : Nat) ^ 32 = 4294967296 := by norm_num
  have key : (e.m_timeToInactive + (2 ^ 32 - 1)) % 2 ^ 32 = e.m_timeToInactive - 1 := by
    rw [h32] at hr ⊢
    omega
  have htick : e.tick = { e with m_timeToInactive := e.m_timeToInactive - 1 } := by
    simp only [Entry.tick, key]
  have hne : e.m_timeToInactive ≠ 0 := by omega
  rw [htick]
  simp only [Entry.getTimeToInactive, Entry.isActive]
  refine ⟨trivial, by omega, by simp [hne], ?_⟩
  simp only [Ne.symm hid, decide_False, Bool.or_false, decide_eq_false_iff_not,
    Decidable.not_not]
  omega

open Swarmlist in
/-- C6 on the entry of robot 2 with TTI 1, seen by robot 1: the tick brings the
TTI to 0 and the entry goes inactive. -/
theorem C6_tick_decrements_witness :
    Entry.getTimeToInactive (Entry.tick ⟨2, 7, 5, 1⟩) = 0 ∧
    Entry.isActive (Entry.tick ⟨2, 7, 5, 1⟩) 1 = false :=
  ⟨(C6_tick_decrements ⟨2, 7, 5, 1⟩ 1 (by decide) (by decide) (by decide)).1,
    (C6_tick_decrements ⟨2, 7, 5, 1⟩ 1 (by decide) (by decide) (by decide)).2.2.2.2 rfl⟩

open Swarmlist in
/-- C7: after `setTicksToInactive(t)`, `resetTimer` sets the TTI to exactly `t`
whatever it was before; a second `resetTimer` right after the first changes
nothing; and when `t ≥ 1` the reset entry is active for every id. -/
theorem C7_resetTimer (s0 : EntryStatics) (t : Nat) (e : Entry) :
    (e.resetTimer (Entry.setTicksToInactive t s0)).getTimeToInactive = t ∧
    (e.resetTimer (Entry.setTicksToInactive t s0)).resetTimer
        (Entry.setTicksToInactive t s0) =
      e.resetTimer (Entry.setTicksToInactive t s0) ∧
    (1 ≤ t → ∀ id, (e.resetTimer (Entry.setTicksToInactive t s0)).isActive id = true) := by
  refine ⟨rfl, rfl, ?_⟩
  intro ht id
  have : t ≠ 0 := by omega
  simp [Entry.resetTimer, Entry.setTicksToInactive, Entry.isActive, this]

open Swarmlist in
/-- C7 on an inactive entry (TTI 0) of robot 2 with `ticks_to_inactive = 100`:
the reset gives TTI 100 and robot 1 sees the entry active again. -/
theorem C7_resetTimer_witness :
    Entry.isActive ⟨2, 7, 5, 0⟩ 1 = false ∧
    (Entry.resetTimer (Entry.setTicksToInactive 100 ⟨3⟩) ⟨2, 7, 5, 0⟩).getTimeToInactive
      = 100 ∧
    (Entry.resetTimer (Entry.setTicksToInactive 100 ⟨3⟩) ⟨2, 7, 5, 0⟩).isActive 1 = true :=
  ⟨by decide, (C7_resetTimer ⟨3⟩ 100 ⟨2, 7, 5, 0⟩).1,
    (C7_resetTimer ⟨3⟩ 100 ⟨2, 7, 5, 0⟩).2.2 (by decide) 1⟩

open Swarmlist in
/-- C8: the robot id never changes and each mutator touches only its own member:
`tick` and `resetTimer` change at most the TTI, `setSwarmMask(m)` changes at
most the swarm mask, which becomes `m`, and `incrementLamport` changes at most
the Lamport; `getRobotId()` is the same after each of the four. -/
theorem C8_mutator_frames (s : EntryStatics) (e : Entry) (m : Nat) :
    (e.tick.getRobotId = e.getRobotId ∧ e.tick.getSwarmMask = e.getSwarmMask ∧
      e.tick.getLamport = e.getLamport) ∧
    ((e.resetTimer s).getRobotId = e.getRobotId ∧
      (e.resetTimer s).getSwarmMask = e.getSwarmMask ∧
      (e.resetTimer s).getLamport = e.getLamport) ∧
    ((e.setSwarmMask m).getRobotId = e.getRobotId ∧
      (e.setSwarmMask m).getSwarmMask = m ∧
      (e.setSwarmMask m).getLamport = e.getLamport ∧
      (e.setSwarmMask m).getTimeToInactive = e.getTimeToInactive) ∧
    (e.incrementLamport.getRobotId = e.getRobotId ∧
      e.incrementLamport.getSwarmMask = e.getSwarmMask ∧
      e.incrementLamport.getTimeToInactive = e.getTimeToInactive) := by
  unfold Entry.tick Entry.resetTimer Entry.setSwarmMask Entry.incrementLamport
    Entry.getRobotId Entry.getSwarmMask Entry.getLamport Entry.getTimeToInactive
  dsimp only
  simp only [and_self]

/-- C9: for `W = 16` and `W = 32` and all `W`-bit values, `isNewerThan` is true
exactly when the rule of the specification holds with `M = 2 ^ W - 1`. For
`W = 16` the promoted `int` intermediates stay within `int`; for `W = 32` the
unsigned difference `M - a_old` does not wrap, and outside the wrapping branch
the unsigned sum `a_old + 50` does not wrap either. -/
theorem C9_isNewerThan_wide_matches_spec (W a_new a_old : Nat)
    (hW : W = 16 ∨ W = 32) (_hnew : a_new < 2 ^ W) (hold : a_old < 2 ^ W) :
    (Lamport.isNewerThan W a_new a_old = true ↔ specNewer W a_new a_old = true) ∧
    (W = 16 → arithSub W (maxUInt W) a_old ≤ INT_MAX ∧
      arithAdd W a_old LAMPORT_THRESHOLD ≤ INT_MAX) ∧
    (W = 32 → arithSub W (maxUInt W) a_old = 2 ^ 32 - 1 - a_old ∧
      (¬ arithSub W (maxUInt W) a_old < LAMPORT_THRESHOLD →
        arithAdd W a_old LAMPORT_THRESHOLD = a_old + LAMPORT_THRESHOLD)) := by
  rcases hW with rfl | rfl
  · norm_num at hold
    refine ⟨?_, ?_, by intro h; omega⟩
    · simp [Lamport.isNewerThan, specNewer, arithSub, arithAdd, maxUInt, castUInt,
        LAMPORT_THRESHOLD]
    · intro _
      simp only [arithSub, arithAdd, maxUInt, INT_MAX, LAMPORT_THRESHOLD]
      norm_num
      omega
  · norm_num at hold
    have hsub : arithSub 32 (maxUInt 32) a_old = 2 ^ 32 - 1 - a_old := by
      simp only [arithSub, maxUInt]
      norm_num
      omega
    have hadd : ¬ (2 ^ 32 - 1 - a_old < 50) →
        arithAdd 32 a_old LAMPORT_THRESHOLD = a_old + 50 := by
      intro h
      simp only [arithAdd, LAMPORT_THRESHOLD]
      norm_num at h ⊢
      omega
    refine ⟨?_, by intro h; omega, fun _ => ⟨hsub, ?_⟩⟩
    · simp only [Lamport.isNewerThan, specNewer, hsub, LAMPORT_THRESHOLD, castUInt,
        arithAdd]
      simp
      split
      · exact Iff.rfl
      · have hsum : (a_old + 50) % 4294967296 = a_old + 50 := by omega
        rw [hsum]
    · rw [hsub]
      intro h
      simpa [LAMPORT_THRESHOLD] using hadd (by simpa [LAMPORT_THRESHOLD] using h)

/-- C9 at wrapping pairs: new clock 3 against old clock `2 ^ 16 - 6`, and against
old clock `2 ^ 32 - 6`. -/
theorem C9_isNewerThan_wide_matches_spec_witness :
    (Lamport16.isNewerThan 3 65530 = true ↔ specNewer 16 3 65530 = true) ∧
    (Lamport32.isNewerThan 3 4294967290 = true ↔ specNewer 32 3 4294967290 = true) :=
  ⟨(C9_isNewerThan_wide_matches_spec 16 3 65530 (Or.inl rfl) (by decide) (by decide)).1,
    (C9_isNewerThan_wide_matches_spec 32 3 4294967290 (Or.inr rfl) (by decide)
      (by decide)).1⟩

open Swarmlist in
/-- C10 fails on the code: `getAverageTti` divides by `m_numUpdates` without a
guard, so it returns the quotient `m_ttiSum / m_numUpdates` exactly on the
states with `m_numUpdates ≠ 0`; on a replica that has recorded no update the
divisor is 0 and the result is NaN, not a quotient (the state is well formed:
every member is within its C++ type). -/
theorem C10_getAverageTti_zero_divisor :
    (∀ s : Swarmlist, s.getAverageTti = RealQuotient.quotient s.m_ttiSum s.m_numUpdates ↔
      s.m_numUpdates ≠ 0) ∧
    (noUpdateYet.inRange ∧ ∀ e ∈ noUpdateYet.m_data, e.inRange) ∧
    noUpdateYet.m_numUpdates = 0 ∧
    noUpdateYet.getAverageTti = RealQuotient.nan ∧
    (∀ n d, noUpdateYet.getAverageTti ≠ RealQuotient.quotient n d) := by
  refine ⟨?_, ⟨by decide, by decide⟩, rfl, rfl, ?_⟩
  · intro s
    unfold getAverageTti
    by_cases h : s.m_numUpdates = 0
    · by_cases h2 : s.m_ttiSum = 0 <;> simp [h, h2]
    · simp [h]
  · intro n d h
    have h2 : noUpdateYet.getAverageTti = RealQuotient.nan := rfl
    rw [h2] at h
    exact RealQuotient.noConfusion h

/-- The comparator at widths 8, 16 and 32 as one window in plain arithmetic:
`a` lies 1 to 50 steps above `b`, directly or after wrapping past `2 ^ W`. -/
theorem isNewerThan_iff_window (W a b : Nat) (hW : W = 8 ∨ W = 16 ∨ W = 32)
    (ha : a < 2 ^ W) (hb : b < 2 ^ W) :
    Lamport.isNewerThan W a b = true ↔
      (b < a ∧ a ≤ b + 50) ∨ a + 2 ^ W ≤ b + 50 := by
  rcases hW with rfl | rfl | rfl <;>
    norm_num at ha hb <;>
    simp only [Lamport.isNewerThan, arithSub, arithAdd, maxUInt, castUInt,
      LAMPORT_THRESHOLD] <;>
    norm_num <;>
    split <;> omega

/-- For each stored clock the comparator accepts exactly 50 incoming values:
the accepted values are the images of the distances 1 to 50. -/
theorem newerCount_eq_fifty (W b : Nat) (hW : W = 8 ∨ W = 16 ∨ W = 32)
    (hb : b < 2 ^ W) : newerCount W b = 50 := by
  have hN : 256 ≤ 2 ^ W := by
    rcases hW with rfl | rfl | rfl <;> norm_num
  have hset : (Finset.range (2 ^ W)).filter
      (fun a => Lamport.isNewerThan W a b = true) =
      (Finset.Icc 1 50).image (fun d => if b + d < 2 ^ W then b + d else b + d - 2 ^ W) := by
    ext a
    simp only [Finset.mem_filter, Finset.mem_range, Finset.mem_image, Finset.mem_Icc]
    constructor
    · rintro ⟨ha, hn⟩
      rw [isNewerThan_iff_window W a b hW ha hb] at hn
      rcases hn with ⟨h1, h2⟩ | h3
      · refine ⟨a - b, ⟨by omega, by omega⟩, ?_⟩
        rw [if_pos (by omega)]
        omega
      · refine ⟨a + 2 ^ W - b, ⟨by omega, by omega⟩, ?_⟩
        rw [if_neg (by omega)]
        omega
    · rintro ⟨d, ⟨hd1, hd2⟩, rfl⟩
      by_cases hlt : b + d < 2 ^ W
      · rw [if_pos hlt]
        refine ⟨hlt, ?_⟩
        rw [isNewerThan_iff_window W (b + d) b hW hlt hb]
        omega
      · rw [if_neg hlt]
        have hlt2 : b + d - 2 ^ W < 2 ^ W := by omega
        refine ⟨hlt2, ?_⟩
        rw [isNewerThan_iff_window W (b + d - 2 ^ W) b hW hlt2 hb]
        omega
  unfold newerCount
  rw [hset, Finset.card_image_of_injOn]
  · simp
  · intro d1 h1 d2 h2 heq
    simp only [Finset.coe_Icc, Set.mem_Icc] at h1 h2
    dsimp only at heq
    split at heq <;> split at heq <;> omega

/-- C11: for `W` in 8, 16, 32 and all `W`-bit `a`, `b`, `a.isNewerThan(b)` is true
iff `1 ≤ (a - b) mod 2 ^ W ≤ 50`; so the clock 50 ticks ahead of `b` (circularly)
is newer, the one 51 ticks ahead is not, and exactly 50 incoming values are
newer than a stored `b`. -/
theorem C11_isNewerThan_iff_modDist (W a b : Nat) (hW : W = 8 ∨ W = 16 ∨ W = 32)
    (ha : a < 2 ^ W) (hb : b < 2 ^ W) :
    (Lamport.isNewerThan W a b = true ↔ (1 ≤ modDist W a b ∧ modDist W a b ≤ 50)) ∧
    Lamport.isNewerThan W ((b + 50) % 2 ^ W) b = true ∧
    Lamport.isNewerThan W ((b + 51) % 2 ^ W) b = false ∧
    newerCount W b = 50 := by
  have hpos : 0 < 2 ^ W := by positivity
  have h50 : (b + 50) % 2 ^ W < 2 ^ W := Nat.mod_lt _ hpos
  have h51 : (b + 51) % 2 ^ W < 2 ^ W := Nat.mod_lt _ hpos
  refine ⟨?_, ?_, ?_, newerCount_eq_fifty W b hW hb⟩
  · rw [isNewerThan_iff_window W a b hW ha hb]
    unfold modDist
    rcases hW with rfl | rfl | rfl <;> norm_num at ha hb ⊢ <;> omega
  · rw [isNewerThan_iff_window W _ b hW h50 hb]
    rcases hW with rfl | rfl | rfl <;> norm_num at hb ⊢ <;> omega
  · rw [← Bool.not_eq_true, isNewerThan_iff_window W _ b hW h51 hb]
    rcases hW with rfl | rfl | rfl <;> norm_num at hb ⊢ <;> omega

/-- C11 at width 8 with stored clock 250 and incoming clock 3 (distance 9 across
the wrap): newer; 44 is 50 ahead and newer, 45 is 51 ahead and not. -/
theorem C11_isNewerThan_iff_modDist_witness :
    (Lamport.isNewerThan 8 3 250 = true ↔ (1 ≤ modDist 8 3 250 ∧ modDist 8 3 250 ≤ 50)) ∧
    Lamport.isNewerThan 8 ((250 + 50) % 2 ^ 8) 250 = true ∧
    Lamport.isNewerThan 8 ((250 + 51) % 2 ^ 8) 250 = false ∧
    newerCount 8 250 = 50 :=
  C11_isNewerThan_iff_modDist 8 3 250 (Or.inl rfl) (by decide) (by decide)

open Swarmlist in
/-- C12: for every entry and `1 ≤ k ≤ 50`, the Lamport after `k` calls to
`incrementLamport` is newer (at width 32, the width the entry stores) than the
Lamport before them, also when the counter wraps past `2 ^ 32 - 1`; and the
Lamport before is not newer than the one after. -/
theorem C12_incremented_is_newer (e : Entry) (k : Nat)
    (he : e.getLamport < 2 ^ 32) (hk1 : 1 ≤ k) (hk : k ≤ 50) :
    Lamport32.isNewerThan (Entry.incrementLamport^[k] e).getLamport e.getLamport = true ∧
    Lamport32.isNewerThan e.getLamport (Entry.incrementLamport^[k] e).getLamport = false := by
  simp only [Entry.getLamport] at he
  have hafter : (Entry.incrementLamport^[k] e).getLamport = (e.m_lamport + k) % 2 ^ 32 := by
    rw [incrementLamport_iterate k e he]
    rfl
  have hlt : (e.m_lamport + k) % 2 ^ 32 < 2 ^ 32 := Nat.mod_lt _ (by positivity)
  have hW : (32 : Nat) = 8 ∨ (32 : Nat) = 16 ∨ (32 : Nat) = 32 := Or.inr (Or.inr rfl)
  rw [hafter]
  simp only [Entry.getLamport, Lamport32.isNewerThan]
  refine ⟨?_, ?_⟩
  · rw [isNewerThan_iff_window 32 _ _ hW hlt he]
    norm_num at he ⊢
    omega
  · rw [← Bool.not_eq_true, isNewerThan_iff_window 32 _ _ hW he hlt]
    norm_num at he ⊢
    omega

open Swarmlist in
/-- C12 on the owner entry with Lamport `2 ^ 32 - 6`, ticked 10 times: the
counter wraps to 4, which is newer than the old value, and not conversely. -/
theorem C12_incremented_is_newer_witness :
    Lamport32.isNewerThan
      (Entry.incrementLamport^[10] ⟨1, 0, 4294967290, 100⟩).getLamport
      (Entry.getLamport ⟨1, 0, 4294967290, 100⟩) = true ∧
    Lamport32.isNewerThan (Entry.getLamport ⟨1, 0, 4294967290, 100⟩)
      (Entry.incrementLamport^[10] ⟨1, 0, 4294967290, 100⟩).getLamport = false :=
  C12_incremented_is_newer ⟨1, 0, 4294967290, 100⟩ 10 (by decide) (by decide) (by decide)

/-- The 8-bit comparator as one window in plain arithmetic. -/
theorem isNewerThan8_iff_window (a b : Nat) (ha : a < 256) (hb : b < 256) :
    Lamport8.isNewerThan a b = true ↔ (b < a ∧ a ≤ b + 50) ∨ a + 256 ≤ b + 50 := by
  have h := isNewerThan_iff_window 8 a b (Or.inl rfl) (by norm_num; exact ha)
    (by norm_num; exact hb)
  norm_num at h
  exact h

/-- C13, as stated, fails on 8-bit clocks. Transitivity: 100 is newer than 50
and 50 is newer than 0, but 100 is not newer than 0. Totality: 0 and 100 are
distinct and neither is newer than the other. -/
theorem C13_not_transitive_not_total :
    (Lamport8.isNewerThan 100 50 = true ∧ Lamport8.isNewerThan 50 0 = true ∧
      Lamport8.isNewerThan 100 0 = false) ∧
    (Lamport8.isNewerThan 0 100 = false ∧ Lamport8.isNewerThan 100 0 = false) ∧
    ¬ (∀ a b c : Nat, a < 256 → b < 256 → c < 256 →
        Lamport8.isNewerThan a b = true → Lamport8.isNewerThan b c = true →
        Lamport8.isNewerThan a c = true) ∧
    ¬ (∀ a b : Nat, a < 256 → b < 256 → a ≠ b →
        Lamport8.isNewerThan a b = true ∨ Lamport8.isNewerThan b a = true) := by
  refine ⟨by decide, by decide, ?_, ?_⟩
  · intro h
    have h1 := h 100 50 0 (by decide) (by decide) (by decide) (by decide) (by decide)
    revert h1
    decide
  · intro h
    have h1 := h 0 100 (by decide) (by decide) (by decide)
    revert h1
    decide

/-- C13, amended: on 8-bit clocks "newer than" is transitive inside the window
(when the circular distances from `b` to `a` and from `c` to `b` add up to at
most 50), and two distinct values are comparable exactly when one of them is at
most 50 ticks ahead of the other on the ring. -/
theorem C13_windowed_order (a b c : Nat) (ha : a < 256) (hb : b < 256) (hc : c < 256) :
    (Lamport8.isNewerThan a b = true → Lamport8.isNewerThan b c = true →
      modDist 8 a b + modDist 8 b c ≤ 50 → Lamport8.isNewerThan a c = true) ∧
    (a ≠ b → ((Lamport8.isNewerThan a b = true ∨ Lamport8.isNewerThan b a = true) ↔
      (modDist 8 a b ≤ 50 ∨ modDist 8 b a ≤ 50))) := by
  rw [isNewerThan8_iff_window a b ha hb, isNewerThan8_iff_window b c hb hc,
    isNewerThan8_iff_window a c ha hc, isNewerThan8_iff_window b a hb ha]
  unfold modDist
  norm_num
  refine ⟨?_, ?_⟩
  · omega
  · intro hne
    omega

/-- C13 amended, on 20, 10 and 250: 20 is newer than 10, 10 is newer than 250
across the wrap, the distances 10 and 16 add up to 26, and 20 is newer than
250. -/
theorem C13_windowed_order_witness :
    Lamport8.isNewerThan 20 10 = true ∧ Lamport8.isNewerThan 10 250 = true ∧
    Lamport8.isNewerThan 20 250 = true :=
  ⟨by decide, by decide,
    (C13_windowed_order 20 10 250 (by decide) (by decide) (by decide)).1
      (by decide) (by decide) (by decide)⟩

open Swarmlist in
/-- C14: `tick` has no guard for an expired timer: on an entry whose TTI is 0 it
wraps the 32-bit counter to 4294967295, so the entry, inactive before for every
id other than its robot id, is active after it for every id. -/
theorem C14_tick_at_zero_wraps (e : Entry) (id : Nat)
    (h0 : e.getTimeToInactive = 0) :
    e.tick.getTimeToInactive = 4294967295 ∧
    e.tick.getTimeToInactive = 2 ^ 32 - 1 ∧
    (id ≠ e.getRobotId → e.isActive id = false) ∧
    e.tick.isActive id = true := by
  simp only [Entry.getTimeToInactive] at h0
  have htick : e.tick = { e with m_timeToInactive := 4294967295 } := by
    simp only [Entry.tick, h0]
    norm_num
  rw [htick]
  simp only [Entry.getTimeToInactive, Entry.getRobotId, Entry.isActive, h0]
  refine ⟨trivial, by norm_num, ?_, by simp⟩
  intro hid
  simp [Ne.symm hid]

open Swarmlist in
/-- C14 on the expired entry of robot 2 as seen by robot 1: inactive before the
tick, TTI 4294967295 and active after it. -/
theorem C14_tick_at_zero_wraps_witness :
    Entry.isActive ⟨2, 7, 5, 0⟩ 1 = false ∧
    (Entry.tick ⟨2, 7, 5, 0⟩).getTimeToInactive = 4294967295 ∧
    (Entry.tick ⟨2, 7, 5, 0⟩).isActive 1 = true :=
  ⟨(C14_tick_at_zero_wraps ⟨2, 7, 5, 0⟩ 1 rfl).2.2.1 (by decide),
    (C14_tick_at_zero_wraps ⟨2, 7, 5, 0⟩ 1 rfl).1,
    (C14_tick_at_zero_wraps ⟨2, 7, 5, 0⟩ 1 rfl).2.2.2⟩

open Swarmlist in
/-- C15: an entry returns its clock as a 32-bit value, and for `a_new`, `a_old`
in `[0, 255]` the 8-bit and the 32-bit comparator disagree exactly when
`a_old > 205` and `a_new ≤ a_old - 206`, where the 8-bit verdict is true and the
32-bit one false; so 3 is newer than 250 at width 8 and not newer than the
clock 250 stored in an entry, compared at width 32. -/
theorem C15_width_changes_verdict (a_new a_old : Nat)
    (hnew : a_new < 256) (hold : a_old < 256) :
    (Lamport8.isNewerThan a_new a_old ≠ Lamport32.isNewerThan a_new a_old ↔
      (a_old > 205 ∧ a_new ≤ a_old - 206)) ∧
    (a_old > 205 ∧ a_new ≤ a_old - 206 →
      Lamport8.isNewerThan a_new a_old = true ∧
      Lamport32.isNewerThan a_new a_old = false) ∧
    Lamport8.isNewerThan 3 250 = true ∧
    Lamport32.isNewerThan 3 (Entry.getLamport ⟨2, 7, 250, 100⟩) = false ∧
    (Entry.incrementLamport ⟨2, 7, 255, 100⟩).getLamport = 256 := by
  have h8 := isNewerThan8_iff_window a_new a_old hnew hold
  have h32 : Lamport32.isNewerThan a_new a_old = true ↔
      (a_old < a_new ∧ a_new ≤ a_old + 50) ∨ a_new + 4294967296 ≤ a_old + 50 := by
    have h := isNewerThan_iff_window 32 a_new a_old (Or.inr (Or.inr rfl))
      (by norm_num; omega) (by norm_num; omega)
    norm_num at h
    exact h
  refine ⟨?_, ?_, by decide, by decide, by decide⟩
  · cases hv8 : Lamport8.isNewerThan a_new a_old <;>
      cases hv32 : Lamport32.isNewerThan a_new a_old <;>
      simp [hv8, hv32] at h8 h32 ⊢ <;> omega
  · intro hcase
    rw [← Bool.not_eq_true, h8, h32]
    omega

open Swarmlist in
/-- C15 at the pair 3, 250: the two widths disagree. -/
theorem C15_width_changes_verdict_witness :
    Lamport8.isNewerThan 3 250 ≠ Lamport32.isNewerThan 3 250 ∧
    Lamport8.isNewerThan 3 250 = true ∧ Lamport32.isNewerThan 3 250 = false :=
  ⟨(C15_width_changes_verdict 3 250 (by decide) (by decide)).1.2 (by decide),
    (C15_width_changes_verdict 3 250 (by decide) (by decide)).2.1 (by decide)⟩

end swlexp
